import Mathlib

/-!
Verification of the LogoCrawler pipeline (src/py/logocrawler/crawler.py).

The development shallowly embeds the core of the crawler:
the protocol/header fallback fetch loop of `fetchDomain`, the
four-strategy logo detection chain of `parseLogoLink`, the
order-preserving dispatch of `run` (pool.map), and the metrics
aggregation of `exportMetrics`.  Network effects are abstracted as
oracles: a fetch oracle mapping a URL and request mode to either a
response object or a raised exception, and a probe oracle for the
header-only requests of the common-path strategy.  The library
function urljoin is abstracted as an uninterpreted join function.
-/

/-- Request mode: a headed request carries the fixed browser header set,
a headless request carries no custom headers. -/
inductive Mode where
  | headed
  | headless
deriving DecidableEq, Repr

/-- A parsed meta tag, keeping the attributes `parseLogoLink` reads. -/
structure MetaTag where
  property : Option String
  content : Option String
deriving DecidableEq, Repr

/-- A parsed img tag: the id attribute, the (multi-valued) class
attribute with missing class modelled as the empty list, matching
the default of img_tag.get with an empty list, and the src attribute. -/
structure ImgTag where
  id : Option String
  classes : List String
  src : Option String
deriving DecidableEq, Repr

/-- A parsed link tag: the multi-valued rel attribute (missing rel is
the empty list, which matches no filter) and the href attribute. -/
structure LinkTag where
  rel : List String
  href : Option String
deriving DecidableEq, Repr

/-- The parts of a parsed HTML document that `parseLogoLink` inspects,
each in document order. -/
structure Page where
  metas : List MetaTag
  imgs : List ImgTag
  links : List LinkTag
deriving DecidableEq, Repr

/-- A requests.Response object: its status code, parsed body and final
(post-redirect) URL. -/
structure HttpResponse where
  status : Nat
  page : Page
  url : String
deriving DecidableEq, Repr

/-- Truthiness of a Response: Python bool(response) is response.ok,
that is, status_code < 400. -/
def HttpResponse.ok (r : HttpResponse) : Bool := r.status < 400

/-- Outcome of one requests.get call: either a response object is
returned, or an exception is raised, carrying the exception class name
and the status code of e.response when that attribute is present. -/
inductive AttemptOutcome where
  | resp (r : HttpResponse)
  | raise (exnName : String) (status : Option Nat)
deriving DecidableEq, Repr

/-- Outcome of one requests.head probe in the common-path strategy:
a response with a status code and optional Content-Type header, or a
raised exception. -/
inductive ProbeOutcome where
  | resp (status : Nat) (contentType : Option String)
  | raise
deriving DecidableEq, Repr

/-- The fixed protocol prefix list from utils.py. -/
def protocols : List String := ["https://www.", "http://www.", "www."]

/-- Whether the first character list is a prefix of the second. -/
def charsPrefix : List Char → List Char → Bool
  | [], _ => true
  | _ :: _, [] => false
  | c :: cs, d :: ds => c == d && charsPrefix cs ds

/-- Whether the first character list occurs contiguously inside the
second. -/
def charsInfix (needle : List Char) : List Char → Bool
  | [] => charsPrefix needle []
  | d :: ds => charsPrefix needle (d :: ds) || charsInfix needle ds

/-- Python substring containment: pyIn sub s models the expression
sub in s on strings. -/
def pyIn (sub s : String) : Bool := charsInfix sub.data s.data

/-- Python truthiness of an optional string: None and the empty string
are falsy. -/
def optTruthy : Option String → Bool
  | none => false
  | some s => s != ""

/-- Python f-string rendering of a variable that is either None or a
string: None renders as the literal string None. -/
def pyFormatOpt : Option String → String
  | none => "None"
  | some s => s

/-- Classification of a caught exception, from the except block of
`fetchDomain`: the status code of e.response when present, otherwise
Error followed by the exception class name. -/
def classify (exnName : String) (status : Option Nat) : String :=
  match status with
  | some code => toString code
  | none => "Error " ++ exnName

/-- Truthiness of the response variable of the fetch loop, which is
either still None or holds a Response object. -/
def respTruthy : Option HttpResponse → Bool
  | some r => r.ok
  | none => false

/-- The mutable locals of the fetch loop in `fetchDomain`:
last_exception (already formatted), response, header_type, url. -/
structure LoopState where
  lastExc : Option String
  response : Option HttpResponse
  headerType : Option String
  url : Option String
deriving DecidableEq, Repr

/-- Initial loop state of `fetchDomain`: all locals are None. -/
def initState : LoopState := ⟨none, none, none, none⟩

/-- One iteration of the protocol loop of `fetchDomain`, for the URL
prot ++ domain.  Returns the updated locals and whether the loop broke.
A truthy headed response breaks with header_type headed; a falsy headed
response triggers the headless request, which breaks when truthy; a
raised exception (from either call) records its classification in
last_exception and moves to the next protocol, leaving the response
variable as the assignment that raised left it. -/
def tryProtocol (oracle : String → Mode → AttemptOutcome) (domain prot : String)
    (s : LoopState) : LoopState × Bool :=
  let u := prot ++ domain
  match oracle u Mode.headed with
  | .resp r =>
    if r.ok then
      ({ s with response := some r, headerType := some "headed", url := some u }, true)
    else
      match oracle u Mode.headless with
      | .resp r2 =>
        if r2.ok then
          ({ s with response := some r2, headerType := some "headless", url := some u }, true)
        else
          ({ s with response := some r2, url := some u }, false)
      | .raise n st =>
        ({ s with response := some r, url := some u, lastExc := some (classify n st) }, false)
  | .raise n st =>
    ({ s with url := some u, lastExc := some (classify n st) }, false)

/-- The protocol loop of `fetchDomain` over the remaining protocol
prefixes, stopping at the first break. -/
def runLoop (oracle : String → Mode → AttemptOutcome) (domain : String) :
    List String → LoopState → LoopState
  | [], s => s
  | p :: ps, s =>
    match tryProtocol oracle domain p s with
    | (s2, true) => s2
    | (s2, false) => runLoop oracle domain ps s2

/-- The fixed common logo path list from `parseLogoLink`. -/
def common_logo_paths : List String :=
  ["/logo.png", "/images/logo.png", "/static/logo.svg", "/assets/logo.png", "/img/logo.png"]

/-- Whether one common-path probe outcome counts as a match:
status 200 and the string image contained in the Content-Type header,
with a missing header read as the empty string; a raised probe
exception is a non-match (the bare except clause continues the loop). -/
def pathMatches : ProbeOutcome → Bool
  | .resp st ct => st == 200 && pyIn "image" (ct.getD "")
  | .raise => false

/-- The common-path strategy: probe each candidate path joined against
the base URL in order, returning the first match. -/
def commonPathScan (probe : String → ProbeOutcome) (ujoin : String → String → String)
    (base : String) : List String → Option String
  | [] => none
  | p :: ps =>
    let u := ujoin base p
    if pathMatches (probe u) then some u else commonPathScan probe ujoin base ps

/-- The OpenGraph strategy: soup.find returns the first meta tag whose
property attribute equals og:image; its content attribute is used when
truthy (present and non-empty). -/
def ogScan (ujoin : String → String → String) (base : String)
    (metas : List MetaTag) : Option String :=
  match metas.find? (fun m => m.property == some "og:image") with
  | some m =>
    match m.content with
    | some c => if c != "" then some (ujoin base c) else none
    | none => none
  | none => none

/-- Whether an img tag is logo-flagged: its id attribute equals logo,
or some class contains the case-insensitive substring logo. -/
def isLogoFlagged (t : ImgTag) : Bool :=
  t.id == some "logo" || t.classes.any (fun c => pyIn "logo" c.toLower)

/-- The img strategy: scan all img tags in document order; for a
logo-flagged tag, return its src joined against the base URL when the
src is truthy, otherwise keep scanning. -/
def imgScan (ujoin : String → String → String) (base : String) :
    List ImgTag → Option String
  | [] => none
  | t :: ts =>
    if isLogoFlagged t then
      match t.src with
      | some s => if s != "" then some (ujoin base s) else imgScan ujoin base ts
      | none => imgScan ujoin base ts
    else imgScan ujoin base ts

/-- The rel filter of the favicon strategy: soup.find_all applies the
lambda to each value of the multi-valued rel attribute; a value matches
when it is truthy and contains the case-insensitive substring icon. -/
def relMatchesIcon (rel : List String) : Bool :=
  rel.any (fun x => x != "" && pyIn "icon" x.toLower)

/-- The favicon strategy: among link tags whose rel matches the icon
filter, return the first with a truthy href, joined against the base
URL. -/
def faviconScan (ujoin : String → String → String) (base : String)
    (links : List LinkTag) : Option String :=
  match (links.filter (fun l => relMatchesIcon l.rel)).find? (fun l => optTruthy l.href) with
  | some l => some (ujoin base (l.href.getD ""))
  | none => none

/-- LogoCrawler.parseLogoLink: run the four strategies in order
common paths, og:image, img logo, favicon; the first returning a link
wins; otherwise the pair (None, not_found) is returned. -/
def parseLogoLink (probe : String → ProbeOutcome) (ujoin : String → String → String)
    (response : HttpResponse) : Option String × String :=
  let base := response.url
  match commonPathScan probe ujoin base common_logo_paths with
  | some u => (some u, "common_path")
  | none =>
    match ogScan ujoin base response.page.metas with
    | some u => (some u, "og_image")
    | none =>
      match imgScan ujoin base response.page.imgs with
      | some u => (some u, "img_logo")
      | none =>
        match faviconScan ujoin base response.page.links with
        | some u => (some u, "favicon")
        | none => (none, "not_found")

/-- The per-domain outcome record built at the end of
LogoCrawler.fetchDomain.  The logoLink field is the Python logo_link
value before f-string rendering (the CSV serializer renders None as
the literal string None). -/
structure DomainResult where
  url : String
  logoLink : Option String
  success : Bool
  requestType : Option String
  message : String
deriving DecidableEq, Repr

/-- LogoCrawler.fetchDomain: run the protocol loop, parse the page when
the final response is truthy, and build the result record.  The message
field is the parse message when logo_link is truthy and otherwise the
f-string rendering of last_exception. -/
def fetchDomain (oracle : String → Mode → AttemptOutcome)
    (probe : String → ProbeOutcome) (ujoin : String → String → String)
    (domain : String) : DomainResult :=
  let s := runLoop oracle domain protocols initState
  let truthy := respTruthy s.response
  let parsed :=
    match s.response with
    | some r => if r.ok then parseLogoLink probe ujoin r else (none, "not_attempted")
    | none => (none, "not_attempted")
  { url := if truthy then s.url.getD domain else domain
    logoLink := parsed.1
    success := optTruthy parsed.1
    requestType := if truthy then s.headerType else none
    message := if optTruthy parsed.1 then parsed.2 else pyFormatOpt s.lastExc }

/-- Instrumentation of one iteration of the protocol loop: the network
attempts actually issued at the URL u (in order), and whether the loop
breaks at this protocol.  A raised headed request moves straight to the
except clause, so no headless attempt is issued for that protocol. -/
def attemptsFor (oracle : String → Mode → AttemptOutcome) (u : String) :
    List (String × Mode) × Bool :=
  match oracle u Mode.headed with
  | .raise _ _ => ([(u, Mode.headed)], false)
  | .resp r =>
    if r.ok then ([(u, Mode.headed)], true)
    else
      match oracle u Mode.headless with
      | .raise _ _ => ([(u, Mode.headed), (u, Mode.headless)], false)
      | .resp r2 => ([(u, Mode.headed), (u, Mode.headless)], r2.ok)

/-- Instrumentation of the whole protocol loop: every network attempt
issued by `fetchDomain`, in order, stopping after the protocol at which
the loop breaks. -/
def attemptsMade (oracle : String → Mode → AttemptOutcome) (domain : String) :
    List String → List (String × Mode)
  | [] => []
  | p :: ps =>
    let af := attemptsFor oracle (p ++ domain)
    if af.2 then af.1 else af.1 ++ attemptsMade oracle domain ps

/-- Instrumentation of one iteration of the protocol loop on the
failure side: none when the protocol yields a usable (truthy) response
and breaks the loop, otherwise the classifications of the exceptions
raised at this protocol, in order (at most one, since a raised headed
request skips the headless attempt). -/
def protocolExcs (oracle : String → Mode → AttemptOutcome) (u : String) :
    Option (List String) :=
  match oracle u Mode.headed with
  | .raise n st => some [classify n st]
  | .resp r =>
    if r.ok then none
    else
      match oracle u Mode.headless with
      | .raise n st => some [classify n st]
      | .resp r2 => if r2.ok then none else some []

/-- The exception classifications collected across all protocols, in
order, under the assumption that no protocol breaks the loop. -/
def allExcs (oracle : String → Mode → AttemptOutcome) (domain : String)
    (ps : List String) : List String :=
  ps.flatMap (fun p => (protocolExcs oracle (p ++ domain)).getD [])

/-- LogoCrawler.run dispatch model: pool.map runs one independent task
per domain and stores each outcome at the original input index.  The
completion order of the tasks is modelled by the list order of indices;
each finishing task writes its result into its own slot. -/
def dispatch (f : String → DomainResult) (domains : List String)
    (order : List Nat) : List (Option DomainResult) :=
  order.foldl
    (fun acc i =>
      match domains[i]? with
      | some d => acc.set i (some (f d))
      | none => acc)
    (List.replicate domains.length none)

/-- The message frequency dictionaries of `exportMetrics`: a Python
dict built by get-increment-or-insert, so keys appear in first-seen
order and counts are updated in place. -/
def countMsgs (msgs : List String) : List (String × Nat) :=
  msgs.foldl
    (fun acc m =>
      if acc.any (fun kv => kv.1 == m) then
        acc.map (fun kv => if kv.1 == m then (kv.1, kv.2 + 1) else kv)
      else acc ++ [(m, 1)])
    []

/-- Spec-side description of first-seen order: the distinct message
strings in order of first occurrence. -/
def firstSeenOrder (msgs : List String) : List String :=
  msgs.foldl (fun acc m => if m ∈ acc then acc else acc ++ [m]) []

/-- Stable insertion step for sorting by descending count, matching the
semantics of the stable Python sorted with key count and reverse True:
an element passes every earlier element with strictly greater count and
lands before the first element whose count is not greater. -/
def insertDescCount (x : String × Nat) : List (String × Nat) → List (String × Nat)
  | [] => [x]
  | y :: ys => if x.2 < y.2 then y :: insertDescCount x ys else x :: y :: ys

/-- Stable sort by descending count, the model of
sorted(d.items(), key count, reverse True). -/
def sortDescCount : List (String × Nat) → List (String × Nat)
  | [] => []
  | x :: xs => insertDescCount x (sortDescCount xs)

/-- Python true division followed by scaling to percent.  Division by
zero raises ZeroDivisionError. -/
def pct (num den : Nat) : Except String Rat :=
  if den = 0 then .error "ZeroDivisionError"
  else .ok ((num : Rat) / (den : Rat) * 100)

/-- The guarded percentages of the breakdown loops: the conditional
expression (count / den * 100) if den > 0 else 0. -/
def pctGuarded (num den : Nat) : Rat :=
  if 0 < den then (num : Rat) / (den : Rat) * 100 else 0

/-- One breakdown section of `exportMetrics`: for each message and
count, the guarded share of its own category and the unguarded share of
the total. -/
def breakdownLines (total den : Nat) :
    List (String × Nat) → Except String (List (String × Nat × Rat × Rat))
  | [] => .ok []
  | (m, c) :: rest => do
    let ps := pctGuarded c den
    let pt ← pct c total
    let tail ← breakdownLines total den rest
    .ok ((m, c, ps, pt) :: tail)

/-- The final common-error section of `exportMetrics`: each error
message with its unguarded share of the total. -/
def commonErrLines (total : Nat) :
    List (String × Nat) → Except String (List (String × Nat × Rat))
  | [] => .ok []
  | (m, c) :: rest => do
    let pt ← pct c total
    let tail ← commonErrLines total rest
    .ok ((m, c, pt) :: tail)

/-- The numbers written by LogoCrawler.exportMetrics, in file order. -/
structure MetricsSummary where
  total : Nat
  successful : Nat
  failed : Nat
  successPct : Rat
  failedPct : Rat
  successBreakdown : List (String × Nat × Rat × Rat)
  failureBreakdown : List (String × Nat × Rat × Rat)
  headed : Nat
  headless : Nat
  failedReq : Nat
  headedPct : Rat
  headlessPct : Rat
  failedReqPct : Rat
  commonErrors : List (String × Nat × Rat)
deriving DecidableEq, Repr

/-- LogoCrawler.exportMetrics: compute the counts, the two frequency
tables sorted by descending count, and every percentage in the order
the file is written; a division by zero aborts with ZeroDivisionError
exactly as in Python. -/
def exportMetrics (results : List DomainResult) : Except String MetricsSummary := do
  let total := results.length
  let successful := (results.filter (fun r => r.success)).length
  let failed := total - successful
  let successTypes := countMsgs ((results.filter (fun r => r.success)).map (fun r => r.message))
  let errorTypes := countMsgs ((results.filter (fun r => !r.success)).map (fun r => r.message))
  let headed := (results.filter (fun r => r.requestType == some "headed")).length
  let headless := (results.filter (fun r => r.requestType == some "headless")).length
  let failedReq := (results.filter (fun r => r.requestType == none)).length
  let successPct ← pct successful total
  let failedPct ← pct failed total
  let sb ← breakdownLines total successful (sortDescCount successTypes)
  let fb ← breakdownLines total failed (sortDescCount errorTypes)
  let headedPct ← pct headed total
  let headlessPct ← pct headless total
  let failedReqPct ← pct failedReq total
  let ce ← commonErrLines total (sortDescCount errorTypes)
  .ok
    { total := total, successful := successful, failed := failed
      successPct := successPct, failedPct := failedPct
      successBreakdown := sb, failureBreakdown := fb
      headed := headed, headless := headless, failedReq := failedReq
      headedPct := headedPct, headlessPct := headlessPct, failedReqPct := failedReqPct
      commonErrors := ce }

/-- Whether an Except value is a success. -/
def isOkE {α : Type} : Except String α → Bool
  | .ok _ => true
  | .error _ => false

/-- An empty parsed page: no meta, img or link tags. -/
def page0 : Page := ⟨[], [], []⟩

/-- A probe oracle on which every header-only request raises. -/
def probeFail : String → ProbeOutcome := fun _ => .raise

/-- A concrete join function standing in for urljoin. -/
def uj0 : String → String → String := fun b r => b ++ r

/-- A fetch oracle on which every request immediately returns a truthy
status 200 response carrying the empty page. -/
def oracle1 : String → Mode → AttemptOutcome := fun u _ => .resp ⟨200, page0, u⟩

/-- Claim C1: a page is fetched on the first attempt but no detection
strategy matches.  `parseLogoLink` does return the pair
(None, not_found), but `fetchDomain` discards that message: since
logo_link is falsy it reports the f-string rendering of the never-set
last_exception, so the resulting record carries the message None
instead of not_found. -/
theorem c1_code_eval :
    parseLogoLink probeFail uj0 ⟨200, page0, "https://www.example.com"⟩ = (none, "not_found") ∧
    fetchDomain oracle1 probeFail uj0 "example.com" =
      ⟨"https://www.example.com", none, false, some "headed", "None"⟩ := by
  decide

/-- Claim C2, counterexample: on the empty result sequence the very
first percentage (successful over total) divides by zero, so the
aggregation raises ZeroDivisionError instead of emitting 0 percent. -/
theorem c2_counterexample : exportMetrics [] = .error "ZeroDivisionError" := rfl

/-- Binding a success into an Except computation runs the
continuation. -/
theorem exceptBindOk {α β : Type} (a : α) (f : α → Except String β) :
    (Except.ok a : Except String α) >>= f = f a := rfl

/-- Percentage computation succeeds on a nonzero denominator. -/
theorem pct_ok {den : Nat} (n : Nat) (h : den ≠ 0) :
    pct n den = .ok ((n : Rat) / (den : Rat) * 100) := by
  simp [pct, h]

/-- With a nonzero total, a breakdown section computes every line:
the per-category share through the guarded percentage and the share of
the total through the unguarded one. -/
theorem breakdownLines_ok {total : Nat} (den : Nat) (h : total ≠ 0) :
    ∀ l, breakdownLines total den l =
      .ok (l.map (fun mc => (mc.1, mc.2, pctGuarded mc.2 den, (mc.2 : Rat) / (total : Rat) * 100)))
  | [] => rfl
  | (m, c) :: rest => by
    simp [breakdownLines, pct_ok c h, breakdownLines_ok den h rest, exceptBindOk]

/-- With a nonzero total, the common-error section computes every
line. -/
theorem commonErrLines_ok {total : Nat} (h : total ≠ 0) :
    ∀ l, commonErrLines total l =
      .ok (l.map (fun mc => (mc.1, mc.2, (mc.2 : Rat) / (total : Rat) * 100)))
  | [] => rfl
  | (m, c) :: rest => by
    simp [commonErrLines, pct_ok c h, commonErrLines_ok h rest, exceptBindOk]

/-- On a non-empty result sequence the metrics aggregation never
divides by zero. -/
theorem exportMetrics_ok (results : List DomainResult) (h : results ≠ []) :
    isOkE (exportMetrics results) = true := by
  have htot : results.length ≠ 0 := by
    simpa using List.length_pos.mpr h |>.ne'
  simp [exportMetrics, pct_ok _ htot, breakdownLines_ok _ htot, commonErrLines_ok htot, isOkE,
    exceptBindOk]

/-- Claim C2 (amended): only the per-category share percentages inside
the success and failure breakdowns are guarded against a zero
denominator (yielding 0); the percentages whose denominator is the
total count are unguarded, so the empty result sequence raises
ZeroDivisionError, while every non-empty sequence is summarized
without error. -/
theorem c2_amended_guards (results : List DomainResult) :
    (isOkE (exportMetrics results) = true ↔ results ≠ []) ∧
    (∀ n : Nat, pctGuarded n 0 = 0) := by
  refine ⟨⟨?_, exportMetrics_ok results⟩, ?_⟩
  · intro h hnil
    subst hnil
    exact absurd h (by decide)
  · intro n
    simp [pctGuarded]

/-- A fetch oracle on which the headed request at the https URL raises
a connection error while every other request returns a falsy status
404 response. -/
def oracle3 : String → Mode → AttemptOutcome := fun u m =>
  match m with
  | .headed => if u = "https://www.example.com" then .raise "ConnectionError" none
               else .resp ⟨404, page0, u⟩
  | .headless => .resp ⟨404, page0, u⟩

/-- Claim C3, counterexample: at the https protocol the headed request
raises (so it yields no usable response), yet no headless request is
ever attempted at that URL — the loop moves straight to the next
protocol. -/
theorem c3_counterexample :
    oracle3 "https://www.example.com" Mode.headed = .raise "ConnectionError" none ∧
    ("https://www.example.com", Mode.headless) ∉ attemptsMade oracle3 "example.com" protocols ∧
    ("http://www.example.com", Mode.headless) ∈ attemptsMade oracle3 "example.com" protocols := by
  refine ⟨rfl, by decide, by decide⟩

/-- The break decision of the instrumented attempt list agrees with the
break decision of the fetch loop iteration, for every incoming loop
state. -/
theorem attemptsFor_break_eq (oracle : String → Mode → AttemptOutcome)
    (domain prot : String) (s : LoopState) :
    (attemptsFor oracle (prot ++ domain)).2 = (tryProtocol oracle domain prot s).2 := by
  cases h : oracle (prot ++ domain) Mode.headed with
  | raise n st => simp [attemptsFor, tryProtocol, h]
  | resp r =>
    by_cases hok : r.ok
    · simp [attemptsFor, tryProtocol, h, hok]
    · cases h2 : oracle (prot ++ domain) Mode.headless with
      | raise n st => simp [attemptsFor, tryProtocol, h, hok, h2]
      | resp r2 =>
        by_cases hok2 : r2.ok <;> simp [attemptsFor, tryProtocol, h, hok, h2, hok2]

/-- Claim C3 (amended): within one protocol iteration, a headless
request is attempted at the URL if and only if the headed request
returned a response object that was not usable (falsy) without raising;
when the headed request raises, the loop records the failure and moves
to the next protocol with no headless attempt at that URL. -/
theorem c3_amended (oracle : String → Mode → AttemptOutcome) (u : String) :
    ((u, Mode.headless) ∈ (attemptsFor oracle u).1) ↔
      ∃ r, oracle u Mode.headed = .resp r ∧ r.ok = false := by
  cases h : oracle u Mode.headed with
  | raise n st =>
    simp [attemptsFor, h]
  | resp r =>
    by_cases hok : r.ok
    · simp [attemptsFor, h, hok]
    · cases h2 : oracle u Mode.headless with
      | raise n st => simp [attemptsFor, h, hok, h2]
      | resp r2 => simp [attemptsFor, h, hok, h2]

/-- Any state reached by the protocol loop from a state with no header
type and no truthy response either broke with a truthy response and a
recorded header type, or kept a falsy response and no header type. -/
theorem runLoop_cases (oracle : String → Mode → AttemptOutcome) (domain : String) :
    ∀ (ps : List String) (s : LoopState), s.headerType = none →
      respTruthy s.response = false →
      (respTruthy (runLoop oracle domain ps s).response = true ∧
        (runLoop oracle domain ps s).headerType.isSome = true) ∨
      (respTruthy (runLoop oracle domain ps s).response = false ∧
        (runLoop oracle domain ps s).headerType = none)
  | [], s, hht, hresp => Or.inr ⟨hresp, hht⟩
  | p :: ps, s, hht, hresp => by
    cases h : oracle (p ++ domain) Mode.headed with
    | raise n st =>
      have ih := runLoop_cases oracle domain ps
        ⟨some (classify n st), s.response, s.headerType, some (p ++ domain)⟩ hht hresp
      simpa [runLoop, tryProtocol, h] using ih
    | resp r =>
      by_cases hok : r.ok
      · left
        simp [runLoop, tryProtocol, h, hok, respTruthy]
      · cases h2 : oracle (p ++ domain) Mode.headless with
        | raise n st =>
          have ih := runLoop_cases oracle domain ps
            ⟨some (classify n st), some r, s.headerType, some (p ++ domain)⟩ hht
            (by simpa [respTruthy] using hok)
          simpa [runLoop, tryProtocol, h, hok, h2] using ih
        | resp r2 =>
          by_cases hok2 : r2.ok
          · left
            simp [runLoop, tryProtocol, h, hok, h2, hok2, respTruthy]
          · have ih := runLoop_cases oracle domain ps
              ⟨s.lastExc, some r2, s.headerType, some (p ++ domain)⟩ hht
              (by simpa [respTruthy] using hok2)
            simpa [runLoop, tryProtocol, h, hok, h2, hok2] using ih

/-- Every link returned by the common-path strategy is a join of the
base URL with some candidate path. -/
theorem commonPathScan_shape (probe : String → ProbeOutcome)
    (ujoin : String → String → String) (base : String) :
    ∀ (paths : List String) (u : String),
      commonPathScan probe ujoin base paths = some u → ∃ p, u = ujoin base p
  | [], u, h => by simp [commonPathScan] at h
  | p :: ps, u, h => by
    by_cases hm : pathMatches (probe (ujoin base p))
    · refine ⟨p, ?_⟩
      simp [commonPathScan, hm] at h
      exact h.symm
    · simp [commonPathScan, hm] at h
      exact commonPathScan_shape probe ujoin base ps u h

/-- Every link returned by the OpenGraph strategy is a join of the base
URL with some content string. -/
theorem ogScan_shape (ujoin : String → String → String) (base : String)
    (metas : List MetaTag) (u : String) (h : ogScan ujoin base metas = some u) :
    ∃ c, u = ujoin base c := by
  unfold ogScan at h
  cases hf : metas.find? (fun m => m.property == some "og:image") with
  | none => simp [hf] at h
  | some m =>
    cases hc : m.content with
    | none => simp [hf, hc] at h
    | some c =>
      by_cases hne : c = ""
      · simp [hf, hc, hne] at h
      · simp [hf, hc, hne] at h
        exact ⟨c, h.symm⟩

/-- Every link returned by the img strategy is a join of the base URL
with some src string. -/
theorem imgScan_shape (ujoin : String → String → String) (base : String) :
    ∀ (imgs : List ImgTag) (u : String),
      imgScan ujoin base imgs = some u → ∃ c, u = ujoin base c
  | [], u, h => by simp [imgScan] at h
  | t :: ts, u, h => by
    by_cases hfl : isLogoFlagged t
    · cases hsrc : t.src with
      | none =>
        simp only [imgScan, hfl, hsrc, if_true] at h
        exact imgScan_shape ujoin base ts u h
      | some s =>
        by_cases hne : s = ""
        · simp [imgScan, hfl, hsrc, hne] at h
          exact imgScan_shape ujoin base ts u h
        · simp [imgScan, hfl, hsrc, hne] at h
          exact ⟨s, h.symm⟩
    · simp [imgScan, hfl] at h
      exact imgScan_shape ujoin base ts u h

/-- Every link returned by the favicon strategy is a join of the base
URL with some href string. -/
theorem faviconScan_shape (ujoin : String → String → String) (base : String)
    (links : List LinkTag) (u : String) (h : faviconScan ujoin base links = some u) :
    ∃ c, u = ujoin base c := by
  unfold faviconScan at h
  cases hf : (links.filter (fun l => relMatchesIcon l.rel)).find? (fun l => optTruthy l.href) with
  | none => rw [hf] at h; exact absurd h (by simp)
  | some l =>
    rw [hf] at h
    refine ⟨l.href.getD "", ?_⟩
    simp at h
    exact h.symm

/-- Every link returned by the detector is a join of the page base URL
with some string extracted from the page or the path list. -/
theorem parseLogoLink_shape (probe : String → ProbeOutcome)
    (ujoin : String → String → String) (r : HttpResponse) (u : String)
    (h : (parseLogoLink probe ujoin r).1 = some u) : ∃ c, u = ujoin r.url c := by
  simp only [parseLogoLink] at h
  cases h1 : commonPathScan probe ujoin r.url common_logo_paths with
  | some v =>
    rw [h1] at h
    simp at h
    subst h
    exact commonPathScan_shape probe ujoin r.url common_logo_paths _ h1
  | none =>
    rw [h1] at h
    cases h2 : ogScan ujoin r.url r.page.metas with
    | some v =>
      rw [h2] at h
      simp at h
      subst h
      exact ogScan_shape ujoin r.url r.page.metas _ h2
    | none =>
      rw [h2] at h
      cases h3 : imgScan ujoin r.url r.page.imgs with
      | some v =>
        rw [h3] at h
        simp at h
        subst h
        exact imgScan_shape ujoin r.url r.page.imgs _ h3
      | none =>
        rw [h3] at h
        cases h4 : faviconScan ujoin r.url r.page.links with
        | some v =>
          rw [h4] at h
          simp at h
          subst h
          exact faviconScan_shape ujoin r.url r.page.links _ h4
        | none =>
          rw [h4] at h
          simp at h

/-- Claim C4: for every result produced by the pipeline, success is
true exactly when a logo link is present and the request type is not
none.  The join function is assumed to return non-empty URLs, which
holds of urljoin on the non-empty base URLs of real responses. -/
theorem c4_success_iff (oracle : String → Mode → AttemptOutcome)
    (probe : String → ProbeOutcome) (ujoin : String → String → String)
    (domain : String) (hj : ∀ b r, ujoin b r ≠ "") :
    (fetchDomain oracle probe ujoin domain).success = true ↔
      ((fetchDomain oracle probe ujoin domain).logoLink ≠ none ∧
       (fetchDomain oracle probe ujoin domain).requestType ≠ none) := by
  have hcase := runLoop_cases oracle domain protocols initState rfl rfl
  cases hresp : (runLoop oracle domain protocols initState).response with
  | none =>
    simp [fetchDomain, hresp, respTruthy, optTruthy]
  | some r =>
    by_cases hok : r.ok
    · have hht : (runLoop oracle domain protocols initState).headerType.isSome = true := by
        rcases hcase with ⟨_, hh⟩ | ⟨hf, _⟩
        · exact hh
        · rw [hresp] at hf
          simp [respTruthy, hok] at hf
      cases hlink : (parseLogoLink probe ujoin r).1 with
      | none =>
        simp [fetchDomain, hresp, hok, respTruthy, hlink, optTruthy]
      | some u =>
        obtain ⟨c, hc⟩ := parseLogoLink_shape probe ujoin r u hlink
        have hne : u ≠ "" := hc ▸ hj r.url c
        simp [fetchDomain, hresp, hok, respTruthy, hlink, optTruthy, hne,
          Option.isSome_iff_ne_none.mp hht]
    · simp [fetchDomain, hresp, respTruthy, hok, optTruthy]

/-- A fetch oracle whose headed https request succeeds with a page that
carries an OpenGraph image tag. -/
def page4 : Page := ⟨[⟨some "og:image", some "/brand.png"⟩], [], []⟩

/-- A fetch oracle returning a truthy response with `page4`. -/
def oracle4 : String → Mode → AttemptOutcome := fun u _ => .resp ⟨200, page4, u⟩

/-- A join function that always returns a non-empty string. -/
def ujC : String → String → String := fun _ _ => "L"

/-- Witness for claim C4 at a concrete input. -/
theorem c4_witness :
    (fetchDomain oracle4 probeFail ujC "example.com").success = true ↔
      ((fetchDomain oracle4 probeFail ujC "example.com").logoLink ≠ none ∧
       (fetchDomain oracle4 probeFail ujC "example.com").requestType ≠ none) := by
  have hL : ("L" : String) ≠ "" := by decide
  exact c4_success_iff oracle4 probeFail ujC "example.com" (fun _ _ => hL)

/-- A page carrying two og:image meta tags — the first with empty
content — plus an image element with id logo. -/
def page5 : Page :=
  ⟨[⟨some "og:image", some ""⟩, ⟨some "og:image", some "/x.png"⟩],
   [⟨some "logo", [], some "/l.png"⟩], []⟩

/-- Claim C5, counterexample: this page contains an og:image meta tag
with non-empty content and an image element with id logo, yet the
detector returns the img_logo match: soup.find only looks at the first
og:image tag, whose empty content makes the OpenGraph strategy fall
through. -/
theorem c5_counterexample :
    (⟨some "og:image", some "/x.png"⟩ : MetaTag) ∈ page5.metas ∧
    ("/x.png" : String) ≠ "" ∧
    (⟨some "logo", [], some "/l.png"⟩ : ImgTag) ∈ page5.imgs ∧
    parseLogoLink probeFail uj0 ⟨200, page5, "http://e.com"⟩ =
      (some "http://e.com/l.png", "img_logo") := by
  decide

/-- When no candidate path matches its probe, the common-path strategy
yields nothing. -/
theorem commonPathScan_none (probe : String → ProbeOutcome)
    (ujoin : String → String → String) (base : String) :
    ∀ paths : List String, (∀ p ∈ paths, pathMatches (probe (ujoin base p)) = false) →
      commonPathScan probe ujoin base paths = none
  | [], _ => rfl
  | p :: ps, h => by
    have hp : pathMatches (probe (ujoin base p)) = false := h p (by simp)
    simp only [commonPathScan, hp, Bool.false_eq_true, if_false]
    exact commonPathScan_none probe ujoin base ps (fun q hq => h q (by simp [hq]))

/-- Claim C5 (amended): the detector runs the strategies in the fixed
order common_path, og_image, img_logo, favicon and the first candidate
wins; whenever no common path matches and the first og:image meta tag
of the page has non-empty content, the detector returns the og_image
match and never img_logo.  (If the first og:image tag has empty or
missing content, later og:image tags are ignored and img_logo can win,
as the counterexample shows.) -/
theorem c5_amended (probe : String → ProbeOutcome)
    (ujoin : String → String → String) (r : HttpResponse) (m : MetaTag) (c : String)
    (h1 : ∀ p ∈ common_logo_paths, pathMatches (probe (ujoin r.url p)) = false)
    (h2 : r.page.metas.find? (fun t => t.property == some "og:image") = some m)
    (h3 : m.content = some c) (h4 : c ≠ "") :
    parseLogoLink probe ujoin r = (some (ujoin r.url c), "og_image") := by
  have hc : commonPathScan probe ujoin r.url common_logo_paths = none :=
    commonPathScan_none probe ujoin r.url common_logo_paths h1
  simp [parseLogoLink, hc, ogScan, h2, h3, h4]

/-- A page with a single og:image meta tag and an id logo image. -/
def page5w : Page :=
  ⟨[⟨some "og:image", some "/brand.png"⟩], [⟨some "logo", [], some "/l.png"⟩], []⟩

/-- Witness for the amended claim C5 at a concrete input: the common
paths all fail to probe, the single og:image tag has non-empty content,
and the detector returns the og_image match even though an id logo
image is present. -/
theorem c5_witness :
    parseLogoLink probeFail uj0 ⟨200, page5w, "http://e.com"⟩ =
      (some (uj0 "http://e.com" "/brand.png"), "og_image") :=
  c5_amended probeFail uj0 ⟨200, page5w, "http://e.com"⟩
    ⟨some "og:image", some "/brand.png"⟩ "/brand.png"
    (by decide) (by decide) rfl (by decide)

/-- Setting a slot never changes the length of the accumulator, so the
dispatch fold preserves length. -/
theorem dispatch_foldl_length (f : String → DomainResult) (domains : List String) :
    ∀ (order : List Nat) (acc : List (Option DomainResult)),
      (order.foldl
        (fun acc i =>
          match domains[i]? with
          | some d => acc.set i (some (f d))
          | none => acc) acc).length = acc.length
  | [], _ => rfl
  | i :: rest, acc => by
    cases h : domains[i]? with
    | some d =>
      simp only [List.foldl_cons, h]
      rw [dispatch_foldl_length f domains rest]
      exact List.length_set acc i _
    | none =>
      simp only [List.foldl_cons, h]
      exact dispatch_foldl_length f domains rest acc

/-- Characterization of the dispatch fold: a slot holds the outcome of
its own domain exactly when its index was scheduled and is in range;
unscheduled slots keep their previous content. -/
theorem dispatch_foldl_getElem (f : String → DomainResult) (domains : List String) (j : Nat) :
    ∀ (order : List Nat) (acc : List (Option DomainResult)),
      acc.length = domains.length →
      (order.foldl
        (fun acc i =>
          match domains[i]? with
          | some d => acc.set i (some (f d))
          | none => acc) acc)[j]? =
        if j ∈ order ∧ j < domains.length then (domains[j]?).map (fun d => some (f d))
        else acc[j]?
  | [], acc, _ => by simp
  | i :: rest, acc, hlen => by
    have hstep :
        (match domains[i]? with
          | some d => acc.set i (some (f d))
          | none => acc).length = domains.length := by
      cases h : domains[i]? with
      | some d => simpa using hlen
      | none => simpa using hlen
    rw [List.foldl_cons, dispatch_foldl_getElem f domains j rest _ hstep]
    by_cases hjr : j ∈ rest ∧ j < domains.length
    · rw [if_pos hjr, if_pos ⟨List.mem_cons_of_mem i hjr.1, hjr.2⟩]
    · rw [if_neg hjr]
      by_cases hji : j = i
      · subst hji
        by_cases hlt : j < domains.length
        · have hjd : ∃ d, domains[j]? = some d :=
            ⟨domains[j], List.getElem?_eq_getElem hlt⟩
          obtain ⟨d, hd⟩ := hjd
          rw [if_pos ⟨List.mem_cons_self j rest, hlt⟩, hd]
          simp only [hd, Option.map_some]
          exact List.getElem?_set_self (by rw [hlen]; exact hlt)
        · have hd : domains[j]? = none := by
            simpa using Nat.le_of_not_lt hlt
          rw [if_neg (fun hcon => hlt hcon.2), hd]
      · have : ¬(j ∈ i :: rest ∧ j < domains.length) := by
          intro hcon
          rcases List.mem_cons.mp hcon.1 with hji2 | hjr2
          · exact hji hji2
          · exact hjr ⟨hjr2, hcon.2⟩
        rw [if_neg this]
        cases h : domains[i]? with
        | some d => exact List.getElem?_set_ne (fun hcon => hji hcon.symm)
        | none => rfl

/-- Claim C6: whatever order the pool tasks complete in (any
permutation of the input indices), the dispatcher returns one outcome
slot per input domain, and slot i holds the pipeline outcome of the
domain at input index i; in particular every completion order — hence
every concurrency level, including 1 — produces the same output
sequence. -/
theorem c6_dispatch_order (oracle : String → Mode → AttemptOutcome)
    (probe : String → ProbeOutcome) (ujoin : String → String → String)
    (domains : List String) (order : List Nat)
    (hperm : order.Perm (List.range domains.length)) :
    dispatch (fetchDomain oracle probe ujoin) domains order =
      domains.map (fun d => some (fetchDomain oracle probe ujoin d)) := by
  apply List.ext_getElem?
  intro j
  have hmem : j ∈ order ↔ j < domains.length := by
    rw [hperm.mem_iff, List.mem_range]
  rw [dispatch, dispatch_foldl_getElem _ _ _ _ _ (by simp), List.getElem?_map]
  by_cases hj : j < domains.length
  · rw [if_pos ⟨hmem.mpr hj, hj⟩]
  · rw [if_neg (fun hcon => hj hcon.2)]
    have h1 : domains[j]? = none := by simpa using Nat.le_of_not_lt hj
    rw [h1]
    simpa using Nat.le_of_not_lt hj

/-- A fetch oracle on which every request raises. -/
def oracle6 : String → Mode → AttemptOutcome := fun _ _ => .raise "ConnectionError" none

/-- Witness for claim C6: two domains completed in reversed order still
yield the input-indexed outcome sequence. -/
theorem c6_witness :
    [1, 0].Perm (List.range (["a.com", "b.com"] : List String).length) ∧
    dispatch (fetchDomain oracle6 probeFail uj0) ["a.com", "b.com"] [1, 0] =
      (["a.com", "b.com"] : List String).map
        (fun d => some (fetchDomain oracle6 probeFail uj0 d)) :=
  ⟨by decide, c6_dispatch_order oracle6 probeFail uj0 ["a.com", "b.com"] [1, 0] (by decide)⟩

/-- The last element of a list, or a default when the list is empty —
the shape of the last_exception variable after appending exception
classifications to an earlier value. -/
def lastOr (l : List String) (d : Option String) : Option String :=
  match l.getLast? with
  | some e => some e
  | none => d

/-- Prepending an element makes it the new default for the last
element. -/
theorem lastOr_cons (c : String) (l : List String) (d : Option String) :
    lastOr (c :: l) d = lastOr l (some c) := by
  cases l with
  | nil => rfl
  | cons e t =>
    simp only [lastOr, List.getLast?_cons_cons]
    cases h : (e :: t).getLast? with
    | some x => rfl
    | none =>
      have hs : (e :: t).getLast?.isSome = true := List.getLast?_isSome.mpr (by simp)
      rw [h] at hs
      simp at hs

/-- With no earlier value, lastOr is just the optional last element. -/
theorem lastOr_none (l : List String) : lastOr l none = l.getLast? := by
  cases h : l.getLast? <;> simp [lastOr, h]

/-- When every protocol fails to produce a usable response, the loop
never breaks: the final last_exception is the most recent exception
classification (if any) overwriting the incoming one, the final
response stays falsy, and the header type is untouched. -/
theorem runLoop_all_fail (oracle : String → Mode → AttemptOutcome) (domain : String) :
    ∀ (ps : List String) (s : LoopState),
      (∀ p ∈ ps, (protocolExcs oracle (p ++ domain)).isSome = true) →
      respTruthy s.response = false →
      (runLoop oracle domain ps s).lastExc =
        lastOr (allExcs oracle domain ps) s.lastExc ∧
      respTruthy (runLoop oracle domain ps s).response = false ∧
      (runLoop oracle domain ps s).headerType = s.headerType
  | [], s, _, hresp => ⟨by simp [runLoop, allExcs, lastOr], hresp, rfl⟩
  | p :: ps, s, hall, hresp => by
    have hp := hall p (by simp)
    have hall' : ∀ q ∈ ps, (protocolExcs oracle (q ++ domain)).isSome = true :=
      fun q hq => hall q (by simp [hq])
    cases h : oracle (p ++ domain) Mode.headed with
    | raise n st =>
      have ih := runLoop_all_fail oracle domain ps
        ⟨some (classify n st), s.response, s.headerType, some (p ++ domain)⟩ hall' hresp
      refine ⟨?_, ?_, ?_⟩
      · rw [show allExcs oracle domain (p :: ps) = classify n st :: allExcs oracle domain ps from
          by simp [allExcs, protocolExcs, h]]
        rw [lastOr_cons]
        simpa [runLoop, tryProtocol, h] using ih.1
      · simpa [runLoop, tryProtocol, h] using ih.2.1
      · simpa [runLoop, tryProtocol, h] using ih.2.2
    | resp r =>
      by_cases hok : r.ok
      · simp [protocolExcs, h, hok] at hp
      · cases h2 : oracle (p ++ domain) Mode.headless with
        | raise n st =>
          have ih := runLoop_all_fail oracle domain ps
            ⟨some (classify n st), some r, s.headerType, some (p ++ domain)⟩ hall'
            (by simpa [respTruthy] using hok)
          refine ⟨?_, ?_, ?_⟩
          · rw [show allExcs oracle domain (p :: ps) = classify n st :: allExcs oracle domain ps from
              by simp [allExcs, protocolExcs, h, hok, h2]]
            rw [lastOr_cons]
            simpa [runLoop, tryProtocol, h, hok, h2] using ih.1
          · simpa [runLoop, tryProtocol, h, hok, h2] using ih.2.1
          · simpa [runLoop, tryProtocol, h, hok, h2] using ih.2.2
        | resp r2 =>
          by_cases hok2 : r2.ok
          · simp [protocolExcs, h, hok, h2, hok2] at hp
          · have ih := runLoop_all_fail oracle domain ps
              ⟨s.lastExc, some r2, s.headerType, some (p ++ domain)⟩ hall'
              (by simpa [respTruthy] using hok2)
            refine ⟨?_, ?_, ?_⟩
            · rw [show allExcs oracle domain (p :: ps) = allExcs oracle domain ps from
                by simp [allExcs, protocolExcs, h, hok, h2, hok2]]
              simpa [runLoop, tryProtocol, h, hok, h2, hok2] using ih.1
            · simpa [runLoop, tryProtocol, h, hok, h2, hok2] using ih.2.1
            · simpa [runLoop, tryProtocol, h, hok, h2, hok2] using ih.2.2

/-- Claim C7 (amended): when every protocol fails to yield a usable
response, the reported message is the f-string rendering of the
classification of the most recent attempt that raised an exception,
each later exception overwriting earlier ones; attempts that fail with
an unusable response but raise nothing leave the reason untouched, and
when no attempt raised the message is the literal string None. -/
theorem c7_amended (oracle : String → Mode → AttemptOutcome)
    (probe : String → ProbeOutcome) (ujoin : String → String → String) (domain : String)
    (hall : ∀ p ∈ protocols, (protocolExcs oracle (p ++ domain)).isSome = true) :
    (fetchDomain oracle probe ujoin domain).message =
      pyFormatOpt (allExcs oracle domain protocols).getLast? ∧
    (fetchDomain oracle probe ujoin domain).requestType = none ∧
    (fetchDomain oracle probe ujoin domain).success = false ∧
    (fetchDomain oracle probe ujoin domain).url = domain := by
  obtain ⟨hle0, hresp, _⟩ := runLoop_all_fail oracle domain protocols initState hall rfl
  have hle : (runLoop oracle domain protocols initState).lastExc =
      (allExcs oracle domain protocols).getLast? := by
    rw [hle0, show initState.lastExc = none from rfl, lastOr_none]
  cases hr : (runLoop oracle domain protocols initState).response with
  | none =>
    simp [fetchDomain, hr, respTruthy, optTruthy, hle]
  | some r =>
    have hok : r.ok = false := by
      rw [hr] at hresp
      simpa [respTruthy] using hresp
    simp [fetchDomain, hr, respTruthy, hok, optTruthy, hle]

/-- A fetch oracle on which every request returns a falsy status 404
response: every attempt fails, but no exception is ever raised. -/
def oracle7c : String → Mode → AttemptOutcome := fun u _ => .resp ⟨404, page0, u⟩

/-- Claim C7, counterexample: every protocol/mode attempt fails (the
request type is none), the final attempt is a headless request whose
falsy response carries status 404, yet the reported message is the
string None — no exception was raised anywhere (the classification
list is empty), so the message is not the classification of any
attempt, let alone of the most recent failed one. -/
theorem c7_counterexample :
    (∀ p ∈ protocols, (protocolExcs oracle7c (p ++ "example.com")).isSome = true) ∧
    (fetchDomain oracle7c probeFail uj0 "example.com").requestType = none ∧
    allExcs oracle7c "example.com" protocols = [] ∧
    (fetchDomain oracle7c probeFail uj0 "example.com").message = "None" ∧
    oracle7c "www.example.com" Mode.headless = .resp ⟨404, page0, "www.example.com"⟩ ∧
    ("None" : String) ≠ toString (404 : Nat) := by
  decide

/-- A fetch oracle raising on every headed request — a later exception
with a response status, earlier ones without — while headless requests
return falsy responses. -/
def oracle7w : String → Mode → AttemptOutcome := fun u m =>
  match m with
  | .headed => if u = "www.example.com" then .raise "ReadTimeout" (some 503)
               else .raise "ConnectionError" none
  | .headless => .resp ⟨404, page0, u⟩

/-- Witness for the amended claim C7: with exceptions at each protocol,
the reported message is the classification of the last one. -/
theorem c7_witness :
    (∀ p ∈ protocols, (protocolExcs oracle7w (p ++ "example.com")).isSome = true) ∧
    (fetchDomain oracle7w probeFail uj0 "example.com").message =
      pyFormatOpt (allExcs oracle7w "example.com" protocols).getLast? :=
  ⟨by decide, (c7_amended oracle7w probeFail uj0 "example.com" (by decide)).1⟩

/-- The common-path strategy is exactly a first-match search over the
path list with the probe-match predicate. -/
theorem commonPathScan_find_char (probe : String → ProbeOutcome)
    (ujoin : String → String → String) (base : String) :
    ∀ paths : List String,
      commonPathScan probe ujoin base paths =
        (paths.find? (fun p => pathMatches (probe (ujoin base p)))).map
          (fun p => ujoin base p)
  | [] => rfl
  | p :: ps => by
    by_cases hm : pathMatches (probe (ujoin base p))
    · simp [commonPathScan, hm]
    · simp only [commonPathScan, hm, Bool.false_eq_true, if_false, List.find?_cons, hm]
      exact commonPathScan_find_char probe ujoin base ps

/-- Claim C8: a candidate path matches exactly when its header-only
probe returns status 200 with an image content-type; a raised probe is
a non-match; a non-matching head path reduces the scan to the remaining
paths (errors are swallowed per path); and the whole strategy is the
first-match search over the fixed path list. -/
theorem c8_probe_semantics (probe : String → ProbeOutcome)
    (ujoin : String → String → String) (base : String) :
    (∀ (st : Nat) (ct : Option String),
      pathMatches (ProbeOutcome.resp st ct) = (st == 200 && pyIn "image" (ct.getD ""))) ∧
    pathMatches ProbeOutcome.raise = false ∧
    (∀ (p : String) (ps : List String),
      commonPathScan probe ujoin base (p :: ps) =
        if pathMatches (probe (ujoin base p)) then some (ujoin base p)
        else commonPathScan probe ujoin base ps) ∧
    commonPathScan probe ujoin base common_logo_paths =
      (common_logo_paths.find? (fun p => pathMatches (probe (ujoin base p)))).map
        (fun p => ujoin base p) :=
  ⟨fun _ _ => rfl, rfl, fun _ _ => rfl, commonPathScan_find_char probe ujoin base _⟩

/-- Inserting into the descending-count order is a permutation of
consing. -/
theorem insertDescCount_perm (x : String × Nat) :
    ∀ l : List (String × Nat), (insertDescCount x l).Perm (x :: l)
  | [] => List.Perm.refl _
  | y :: ys => by
    by_cases h : x.2 < y.2
    · simp only [insertDescCount, if_pos h]
      exact ((insertDescCount_perm x ys).cons y).trans (List.Perm.swap x y ys)
    · simp only [insertDescCount, if_neg h]
      exact List.Perm.refl _

/-- The descending-count sort permutes its input. -/
theorem sortDescCount_perm : ∀ l, (sortDescCount l).Perm l
  | [] => List.Perm.refl _
  | x :: xs =>
    (insertDescCount_perm x (sortDescCount xs)).trans ((sortDescCount_perm xs).cons x)

/-- Inserting preserves the descending-count pairwise ordering. -/
theorem insertDescCount_sorted (x : String × Nat) :
    ∀ l : List (String × Nat), l.Pairwise (fun a b => b.2 ≤ a.2) →
      (insertDescCount x l).Pairwise (fun a b => b.2 ≤ a.2)
  | [], _ => by simp [insertDescCount]
  | y :: ys, h => by
    rcases List.pairwise_cons.mp h with ⟨hy, hys⟩
    by_cases hlt : x.2 < y.2
    · simp only [insertDescCount, if_pos hlt]
      refine List.pairwise_cons.mpr ⟨?_, insertDescCount_sorted x ys hys⟩
      intro z hz
      rcases List.mem_cons.mp ((insertDescCount_perm x ys).mem_iff.mp hz) with rfl | hz3
      · exact Nat.le_of_lt hlt
      · exact hy z hz3
    · simp only [insertDescCount, if_neg hlt]
      refine List.pairwise_cons.mpr ⟨?_, h⟩
      intro z hz
      rcases List.mem_cons.mp hz with rfl | hz3
      · exact Nat.le_of_not_lt hlt
      · exact le_trans (hy z hz3) (Nat.le_of_not_lt hlt)

/-- The frequency tables are sorted with counts descending. -/
theorem sortDescCount_sorted : ∀ l, (sortDescCount l).Pairwise (fun a b => b.2 ≤ a.2)
  | [] => by simp [sortDescCount]
  | x :: xs => insertDescCount_sorted x _ (sortDescCount_sorted xs)

/-- Filtering a fixed count out of an insertion: an inserted element of
that count lands in front (everything it passed has a strictly greater
count), and an element of another count is invisible to the filter. -/
theorem filterCount_insertDescCount (c : Nat) (x : String × Nat) :
    ∀ l : List (String × Nat),
      (insertDescCount x l).filter (fun kv => kv.2 == c) =
        if x.2 == c then x :: l.filter (fun kv => kv.2 == c)
        else l.filter (fun kv => kv.2 == c)
  | [] => by by_cases hx : x.2 == c <;> simp [insertDescCount, hx]
  | y :: ys => by
    by_cases hlt : x.2 < y.2
    · simp only [insertDescCount, if_pos hlt]
      by_cases hx : x.2 == c
      · have hyc : (y.2 == c) = false := by
          have : x.2 = c := by simpa using hx
          simp only [beq_eq_false_iff_ne, ne_eq]
          omega
        rw [if_pos hx]
        simp only [List.filter_cons, hyc, Bool.false_eq_true, if_false]
        rw [filterCount_insertDescCount c x ys, if_pos hx]
      · rw [if_neg hx]
        simp only [List.filter_cons]
        rw [filterCount_insertDescCount c x ys, if_neg hx]
    · simp only [insertDescCount, if_neg hlt]
      by_cases hx : x.2 == c <;> simp [List.filter_cons, hx]

/-- Sorting by descending count preserves the relative order of
entries that share a count: the sort is stable, so ties keep their
first-seen order from the frequency table. -/
theorem filterCount_sortDescCount (c : Nat) :
    ∀ l : List (String × Nat),
      (sortDescCount l).filter (fun kv => kv.2 == c) = l.filter (fun kv => kv.2 == c)
  | [] => rfl
  | x :: xs => by
    rw [sortDescCount, filterCount_insertDescCount c x (sortDescCount xs)]
    by_cases hx : x.2 == c
    · rw [if_pos hx, filterCount_sortDescCount c xs]
      simp [List.filter_cons, hx]
    · rw [if_neg hx, filterCount_sortDescCount c xs]
      simp [List.filter_cons, hx]

/-- The keys of the frequency dictionary, generalized over the
accumulator: counting updates counts in place and appends new keys, so
the key list grows exactly like the first-seen fold. -/
theorem countMsgs_keys_aux (msgs : List String) :
    ∀ acc : List (String × Nat),
      ((msgs.foldl
        (fun acc m =>
          if acc.any (fun kv => kv.1 == m) then
            acc.map (fun kv => if kv.1 == m then (kv.1, kv.2 + 1) else kv)
          else acc ++ [(m, 1)]) acc).map Prod.fst) =
      msgs.foldl (fun acc m => if m ∈ acc then acc else acc ++ [m]) (acc.map Prod.fst) := by
  induction msgs with
  | nil => intro acc; rfl
  | cons m ms ih =>
    intro acc
    rw [List.foldl_cons, List.foldl_cons]
    by_cases hmem : m ∈ acc.map Prod.fst
    · have hany : acc.any (fun kv => kv.1 == m) = true := by
        rcases List.mem_map.mp hmem with ⟨kv, hkv, hfst⟩
        exact List.any_eq_true.mpr ⟨kv, hkv, by simp [hfst]⟩
      rw [if_pos hany, if_pos hmem, ih]
      congr 1
      rw [List.map_map]
      exact List.map_congr_left (fun kv _ => by by_cases h : kv.1 = m <;> simp [h])
    · have hany : ¬acc.any (fun kv => kv.1 == m) = true := by
        intro hcon
        rcases List.any_eq_true.mp hcon with ⟨kv, hkv, hbeq⟩
        exact hmem (List.mem_map.mpr ⟨kv, hkv, by simpa using hbeq⟩)
      rw [if_neg hany, if_neg hmem, ih]
      congr 1
      simp

/-- The keys of the frequency dictionary are the distinct messages in
first-seen order. -/
theorem countMsgs_keys (msgs : List String) :
    (countMsgs msgs).map Prod.fst = firstSeenOrder msgs := by
  simpa [countMsgs, firstSeenOrder] using countMsgs_keys_aux msgs []

/-- One frequency table: sorting permutes it, orders counts
descending, keeps entries of equal count in table order, and the table
keys are the distinct messages in first-seen order. -/
theorem freqTable_props (msgs : List String) :
    (sortDescCount (countMsgs msgs)).Perm (countMsgs msgs) ∧
    (sortDescCount (countMsgs msgs)).Pairwise (fun a b => b.2 ≤ a.2) ∧
    (∀ c : Nat, (sortDescCount (countMsgs msgs)).filter (fun kv => kv.2 == c) =
      (countMsgs msgs).filter (fun kv => kv.2 == c)) ∧
    (countMsgs msgs).map Prod.fst = firstSeenOrder msgs :=
  ⟨sortDescCount_perm _, sortDescCount_sorted _,
    fun c => filterCount_sortDescCount c _, countMsgs_keys msgs⟩

/-- Claim C9: both message frequency tables of the metrics summary (the
success messages and the failure messages) are sorted in descending
order of count; entries with equal counts keep the frequency-table
order, which is the first-seen order of the message strings. -/
theorem c9_freq_tables (results : List DomainResult) :
    ((sortDescCount (countMsgs ((results.filter (fun r => r.success)).map
        (fun r => r.message)))).Perm
      (countMsgs ((results.filter (fun r => r.success)).map (fun r => r.message))) ∧
     (sortDescCount (countMsgs ((results.filter (fun r => r.success)).map
        (fun r => r.message)))).Pairwise (fun a b => b.2 ≤ a.2) ∧
     (∀ c : Nat,
       (sortDescCount (countMsgs ((results.filter (fun r => r.success)).map
          (fun r => r.message)))).filter (fun kv => kv.2 == c) =
       (countMsgs ((results.filter (fun r => r.success)).map
          (fun r => r.message))).filter (fun kv => kv.2 == c)) ∧
     (countMsgs ((results.filter (fun r => r.success)).map
        (fun r => r.message))).map Prod.fst =
       firstSeenOrder ((results.filter (fun r => r.success)).map (fun r => r.message))) ∧
    ((sortDescCount (countMsgs ((results.filter (fun r => !r.success)).map
        (fun r => r.message)))).Perm
      (countMsgs ((results.filter (fun r => !r.success)).map (fun r => r.message))) ∧
     (sortDescCount (countMsgs ((results.filter (fun r => !r.success)).map
        (fun r => r.message)))).Pairwise (fun a b => b.2 ≤ a.2) ∧
     (∀ c : Nat,
       (sortDescCount (countMsgs ((results.filter (fun r => !r.success)).map
          (fun r => r.message)))).filter (fun kv => kv.2 == c) =
       (countMsgs ((results.filter (fun r => !r.success)).map
          (fun r => r.message))).filter (fun kv => kv.2 == c)) ∧
     (countMsgs ((results.filter (fun r => !r.success)).map
        (fun r => r.message))).map Prod.fst =
       firstSeenOrder ((results.filter (fun r => !r.success)).map (fun r => r.message))) :=
  ⟨freqTable_props _, freqTable_props _⟩

/-- Claim C10, counterexample: the first logo-flagged image element
does have a src attribute (the empty string), yet the strategy skips it
because the src is falsy, and returns the second logo-flagged image
instead of the first one that has a src. -/
theorem c10_counterexample :
    isLogoFlagged ⟨some "logo", [], some ""⟩ = true ∧
    (⟨some "logo", [], some ""⟩ : ImgTag).src.isSome = true ∧
    imgScan uj0 "x" [⟨some "logo", [], some ""⟩, ⟨some "logo", [], some "/a.png"⟩] =
      some "x/a.png" := by
  decide

/-- Claim C10 (amended): a logo-flagged image element whose src is
absent or empty (falsy) is skipped and the scan continues in document
order; the strategy returns the join of the base URL with the src of
the first logo-flagged image whose src is truthy, not necessarily the
first logo-flagged image. -/
theorem c10_amended (ujoin : String → String → String) (base : String) :
    ∀ imgs : List ImgTag,
      imgScan ujoin base imgs =
        (imgs.find? (fun t => isLogoFlagged t && optTruthy t.src)).map
          (fun t => ujoin base (t.src.getD ""))
  | [] => rfl
  | t :: ts => by
    by_cases hfl : isLogoFlagged t
    · cases hsrc : t.src with
      | none =>
        have hop : optTruthy t.src = false := by simp [hsrc, optTruthy]
        simp only [imgScan, hfl, if_true, hsrc, List.find?_cons, hop, Bool.and_false]
        exact c10_amended ujoin base ts
      | some s =>
        by_cases hne : s = ""
        · have hop : optTruthy (some s) = false := by simp [optTruthy, hne]
          have hbne : (s != "") = false := by simp [hne]
          simp only [imgScan, hfl, if_true, hsrc, hbne, Bool.false_eq_true, if_false,
            List.find?_cons, hop, Bool.and_false]
          exact c10_amended ujoin base ts
        · have hop : optTruthy (some s) = true := by simp [optTruthy, hne]
          have hbne : (s != "") = true := by simp [hne]
          simp only [imgScan, hfl, if_true, hsrc, hbne, if_true, List.find?_cons, hop,
            Bool.and_true, Option.map_some]
          simp [hsrc]
    · have hpred : (isLogoFlagged t && optTruthy t.src) = false := by simp [hfl]
      simp only [imgScan, hfl, Bool.false_eq_true, if_false, List.find?_cons, hpred]
      exact c10_amended ujoin base ts
